import Mathlib

/-!
Verification of the GradingEnv repository (src/mtest.hpp, src/grading.hpp,
src/example/main.cpp): a shallow embedding of the two test-environment
variants (`MTEnv`, the advanced one, and `GradingEnv`, the simple one)
together with proofs of the specified properties.

Conventions of the embedding:
* C++ machine integers that matter only as counters/ids are modelled as `Nat`
  (the `int MTEnv::_idCounter` starts at 0 and only grows); the `uint8_t
  GradingEnv::_currentTest` is modelled with an explicit `% 256` at the
  increment, which is the defined wrap-around of C++ unsigned arithmetic.
* `std::map<int, Records>` is modelled as an association list kept sorted by
  key, with `mapEmplace` mirroring `find`-then-`push_back`-or-`emplace`.
* A test body is a list of assertion actions interpreted against the
  environment state; this mirrors the C++ test functions, which receive the
  environment by reference and may only interact with it through the
  assertion helpers (plus possibly throwing an exception of their own).
* Fallible steps (the null `_currentTest` dereference, an exception escaping
  a test body, `std::vector::at` throwing `std::out_of_range`) are explicit
  constructors of result types.
* The template assertion helpers are instantiated at `T = Int`, with
  `toString` standing for `operator<<`.
-/

/-- Assertion record of the advanced variant: `struct Record` in mtest.hpp
(`pass`, `printable`, `reason : std::optional<std::string>`). -/
structure MTRecord where
  pass : Bool
  printable : Bool
  reason : Option String
deriving Repr, DecidableEq

/-- Exceptions are modelled by a numeric kind standing for the C++ dynamic
type used to classify a caught exception. -/
abbrev ErrKind := Nat

/-- The actions a test body can perform against the environment: one
constructor per assertion helper of `MTEnv`, plus `throwErr` for an
exception raised by the body itself outside any helper. Thunks passed to the
exception helpers are modelled by their outcome: `none` (the thunk returns
normally) or `some k` (the thunk raises an exception of kind `k`). -/
inductive MTAction where
  | expectGen (cond : Bool) (reason : String) (printable : Bool)
  | expectEq (l r : Int) (printable : Bool)
  | expectNeq (l r : Int) (printable : Bool)
  | expectTrue (v : Bool) (printable : Bool)
  | expectFalse (v : Bool) (printable : Bool)
  | expectExcept (kind : ErrKind) (thunk : Option ErrKind) (expectFailure : Bool)
  | expectNoExcept (thunk : Option ErrKind) (expectFailure : Bool)
  | expectAnyExcept (thunk : Option ErrKind) (expectFailure : Bool)
  | throwErr (e : ErrKind)
deriving Repr, DecidableEq

/-- A registered test: `struct MTTest` in mtest.hpp (`id`, `name`,
`feedback`, `f`). The function member is the action list `body`. -/
structure MTTest where
  id : Nat
  name : String
  feedback : String
  body : List MTAction
deriving Repr, DecidableEq

/-- State of an `MTEnv` object: `_currentTest` (a possibly-null owned
pointer), `_tests`, and `_records`. The static process-wide `_idCounter` is
not a field; it is threaded explicitly through `add_test`. -/
structure MTEnv where
  currentTest : Option MTTest
  tests : List MTTest
  records : List (Nat × List MTRecord)
deriving Repr, DecidableEq

/-- A freshly constructed `MTEnv`: `_currentTest(nullptr)`, empty test list,
empty record map. -/
def MTEnv.init : MTEnv := ⟨none, [], []⟩

/-- `std::map` insertion as used by `_insertRecord`: if the key is present,
append the record to its list, otherwise emplace a fresh singleton list at
the key's sorted position. -/
def mapEmplace {α : Type} : List (Nat × List α) → Nat → α → List (Nat × List α)
  | [], k, r => [(k, [r])]
  | (k', rs) :: rest, k, r =>
    if k = k' then (k', rs ++ [r]) :: rest
    else if k < k' then (k, [r]) :: (k', rs) :: rest
    else (k', rs) :: mapEmplace rest k r

/-- Lookup in the association-list model of `std::map`. -/
def mapFind {α : Type} (k : Nat) : List (Nat × List α) → Option (List α)
  | [] => none
  | (k', rs) :: rest => if k = k' then some rs else mapFind k rest

/-- `MTEnv::_insertRecord`: reads `_currentTest->id` and files the record
under it. When `_currentTest` is null — which is its state before `run_all`
makes any test current — the arrow dereferences a null pointer; that
undefined behaviour is the `none` result. -/
def MTEnv.insertRecord (env : MTEnv) (r : MTRecord) : Option MTEnv :=
  match env.currentTest with
  | none => none
  | some t => some { env with records := mapEmplace env.records t.id r }

/-- The record built by `MTEnv::expect`: passing (empty reason) when the
comparator returned true, otherwise failing with the red-wrapped reason
(`"\x1b[31m" << reason << "\x1b[0m" << std::endl`). -/
def expectRecord (cond : Bool) (reason : String) (printable : Bool) : MTRecord :=
  if cond then ⟨true, printable, none⟩
  else ⟨false, printable, some ("\x1b[31m" ++ reason ++ "\x1b[0m\n")⟩

/-- `MTEnv::expect`: build the record from the comparator's result and
insert it under the current test. -/
def MTEnv.expect (cond : Bool) (reason : String) (printable : Bool)
    (env : MTEnv) : Option MTEnv :=
  env.insertRecord (expectRecord cond reason printable)

/-- `MTEnv::expect_eq<T>` at `T = Int`: reason `l << " != " << r`,
comparator `l == r`. -/
def MTEnv.expect_eq (l r : Int) (printable : Bool) (env : MTEnv) : Option MTEnv :=
  MTEnv.expect (decide (l = r)) (toString l ++ " != " ++ toString r) printable env

/-- `MTEnv::expect_neq<T>` at `T = Int`: reason `l << " == " << r`,
comparator `l != r`. -/
def MTEnv.expect_neq (l r : Int) (printable : Bool) (env : MTEnv) : Option MTEnv :=
  MTEnv.expect (!decide (l = r)) (toString l ++ " == " ++ toString r) printable env

/-- `MTEnv::expect_true`. -/
def MTEnv.expect_true (v : Bool) (printable : Bool) (env : MTEnv) : Option MTEnv :=
  MTEnv.expect (v == true) "value is false" printable env

/-- `MTEnv::expect_false`. -/
def MTEnv.expect_false (v : Bool) (printable : Bool) (env : MTEnv) : Option MTEnv :=
  MTEnv.expect (v == false) "value is true" printable env

/-- The record built by the exception-assertion helpers. Modelled from the
spec: the helper observes an `outcome` (whether the thunk's behaviour matched
the expectation) and `expectFailure` inverts it; the reason is populated only
on failure. -/
def exceptRecord (outcome expectFailure : Bool) : MTRecord :=
  if outcome != expectFailure then ⟨true, true, none⟩
  else ⟨false, true, some "exception expectation failed"⟩

/-- Modelled from the spec: `expect_except<K>(thunk, expectFailure)` is
called in src/example/main.cpp but its definition is not under src/. Spec
§4.1/§4.5: run the thunk; success iff it raises an error classified as kind
`K`, inverted by `expectFailure`; the record is appended under the current
test and the thunk's exception never escapes the helper. -/
def MTEnv.expect_except (kind : ErrKind) (thunk : Option ErrKind)
    (expectFailure : Bool) (env : MTEnv) : Option MTEnv :=
  env.insertRecord (exceptRecord (thunk == some kind) expectFailure)

/-- Modelled from the spec: `expect_no_except(thunk, expectFailure)` is
called in src/example/main.cpp but its definition is not under src/. Success
iff the thunk completes without raising; `expectFailure` inverts. -/
def MTEnv.expect_no_except (thunk : Option ErrKind) (expectFailure : Bool)
    (env : MTEnv) : Option MTEnv :=
  env.insertRecord (exceptRecord thunk.isNone expectFailure)

/-- Modelled from the spec: `expect_any_except(thunk, expectFailure)` is
called in src/example/main.cpp but its definition is not under src/. Success
iff the thunk raises an error of any kind; `expectFailure` inverts. -/
def MTEnv.expect_any_except (thunk : Option ErrKind) (expectFailure : Bool)
    (env : MTEnv) : Option MTEnv :=
  env.insertRecord (exceptRecord thunk.isSome expectFailure)

/-- Result of one step of a test body: normal continuation, the undefined
null-`_currentTest` dereference, or an exception escaping the body. -/
inductive ExecResult where
  | ok (env : MTEnv)
  | nullDeref
  | thrown (e : ErrKind)
deriving Repr, DecidableEq

/-- Interpret one action of a test body against the environment. Assertion
helpers never raise; a `throwErr` action is an exception the body raises
outside every helper, which nothing in the framework catches. -/
def MTEnv.execAction (env : MTEnv) : MTAction → ExecResult
  | .expectGen cond reason printable =>
    match MTEnv.expect cond reason printable env with
    | some env' => .ok env'
    | none => .nullDeref
  | .expectEq l r p =>
    match MTEnv.expect_eq l r p env with
    | some env' => .ok env'
    | none => .nullDeref
  | .expectNeq l r p =>
    match MTEnv.expect_neq l r p env with
    | some env' => .ok env'
    | none => .nullDeref
  | .expectTrue v p =>
    match MTEnv.expect_true v p env with
    | some env' => .ok env'
    | none => .nullDeref
  | .expectFalse v p =>
    match MTEnv.expect_false v p env with
    | some env' => .ok env'
    | none => .nullDeref
  | .expectExcept kind thunk ef =>
    match MTEnv.expect_except kind thunk ef env with
    | some env' => .ok env'
    | none => .nullDeref
  | .expectNoExcept thunk ef =>
    match MTEnv.expect_no_except thunk ef env with
    | some env' => .ok env'
    | none => .nullDeref
  | .expectAnyExcept thunk ef =>
    match MTEnv.expect_any_except thunk ef env with
    | some env' => .ok env'
    | none => .nullDeref
  | .throwErr e => .thrown e

/-- Run a test body to completion, stopping at the first abnormal step. -/
def MTEnv.runBody (env : MTEnv) : List MTAction → ExecResult
  | [] => .ok env
  | a :: rest =>
    match env.execAction a with
    | .ok env' => MTEnv.runBody env' rest
    | r => r

/-- The loop of `MTEnv::run_all`: for each test in order, make it current
(`_currentTest = std::make_unique<MTTest>(it)`) and invoke its function with
the environment. Returns the ids of the tests whose function was invoked, in
invocation order, together with the final result; an exception escaping a
body aborts the loop. -/
def MTEnv.runTests (env : MTEnv) : List MTTest → List Nat × ExecResult
  | [] => ([], .ok env)
  | t :: ts =>
    match MTEnv.runBody { env with currentTest := some t } t.body with
    | .ok env' =>
      let p := MTEnv.runTests env' ts
      (t.id :: p.1, p.2)
    | r => ([t.id], r)

/-- `MTEnv::add_test` (single-tuple overload): push a test carrying the
current value of the static `_idCounter`, then increment the counter. The
counter is the first component of the state pair. -/
def MTEnv.add_test (p : Nat × MTEnv) (name feedback : String)
    (body : List MTAction) : Nat × MTEnv :=
  (p.1 + 1, { p.2 with tests := p.2.tests ++ [⟨p.1, name, feedback, body⟩] })

/-- `MTEnv::add_test` (initializer-list overload): register a batch of
tests in order. -/
def MTEnv.add_tests (p : Nat × MTEnv)
    (ts : List (String × String × List MTAction)) : Nat × MTEnv :=
  ts.foldl (fun q t => MTEnv.add_test q t.1 t.2.1 t.2.2) p

/-- The string `operator<<(std::ostream&, const Record&)` writes for one
record: the red TEST CASE FAILED block when the record failed and is
printable, nothing otherwise. -/
def recordOut (rec : MTRecord) : String :=
  if !rec.pass && rec.printable then
    "  \x1b[31m[TEST CASE FAILED]\n    Reason: " ++ rec.reason.getD "no provided"
      ++ "\x1b[0m"
  else ""

/-- The `failedRecord` counter of `MTEnv::_report`: how many records of one
map entry have `pass == false` (counted whether or not they are printable). -/
def entryFailed (recs : List MTRecord) : Nat :=
  recs.countP (fun r => r.pass = false)

/-- The per-record output of one map entry, in order. -/
def entryOut (recs : List MTRecord) : String :=
  String.join (recs.map recordOut)

/-- Result of `MTEnv::_report`: normal output with the aggregate percentage;
or the aggregate computed from zero entries, in which case the percentage is
`0.0f / 0.0f` — NaN, whose conversion to `int` is undefined — while the
output up to that point is still produced; or `std::out_of_range` thrown by
`_tests.at`. -/
inductive MTReportResult where
  | ok (out : String) (percentage : Nat)
  | nanPercentage (out : String)
  | outOfRange
deriving Repr, DecidableEq

/-- Round-to-nearest, ties-to-even, of the quotient `a / b` (for `b > 0`):
the rounding mode of every IEEE-754 binary32 operation below. -/
def rne (a b : Nat) : Nat :=
  let q := a / b
  let r := a % b
  if b < 2 * r then q + 1
  else if 2 * r < b then q
  else q + q % 2

/-- Number of binary digits of `n` (`⌊log2 n⌋ + 1` for `n > 0`, and `0` for
`0`), written with structural fuel (`n` halves each step, so fuel `n` is
ample) so that it evaluates inside the kernel. -/
def bitlenAux : Nat → Nat → Nat
  | 0, _ => 0
  | fuel + 1, n => if n = 0 then 0 else bitlenAux fuel (n / 2) + 1

/-- See `bitlenAux`. -/
def bitlen (n : Nat) : Nat := bitlenAux n n

/-- Smallest `n` with `t ≤ p * 2^n`, for `0 < p ≤ t` (structural fuel `t`
is ample since at most `⌊log2 t⌋ + 1` doublings are needed). -/
def divShiftAux : Nat → Nat → Nat → Nat
  | 0, _, _ => 0
  | fuel + 1, p, t => if p < t then divShiftAux fuel (2 * p) t + 1 else 0

/-- See `divShiftAux`. -/
def divShift (p t : Nat) : Nat := divShiftAux t p t

/-- IEEE-754 binary32 correctly rounded value of `p / t` for `0 < p ≤ t`,
as a dyadic pair `(m, n)` of value `m / 2^(23 + n)`: the exact quotient is
scaled into the 24-bit mantissa range `[2^23, 2^24)` and rounded to nearest,
ties to even (a round-up to `2^24` is still the correctly rounded float). -/
def fdiv32 (p t : Nat) : Nat × Nat :=
  let n := divShift p t
  (rne (p * 2 ^ (23 + n)) t, n)

/-- IEEE-754 binary32 rounding of the product `m * 100`, as a pair
`(m2, s)` of value `m2 * 2^s`: exact when the product fits 24 bits,
otherwise rounded to nearest, ties to even, at 24 significant bits. -/
def fmul100 (m : Nat) : Nat × Nat :=
  let prod := 100 * m
  if 24 < bitlen prod then (rne prod (2 ^ (bitlen prod - 24)), bitlen prod - 24)
  else (prod, 0)

/-- The percentage `(int)std::ceil((passed / total) * 100)` as the program
computes it on `float` counters (mtest.hpp line 256, grading.hpp line 186),
for `total > 0`: binary32 division, binary32 multiplication by 100, then
`ceil` (exact on a binary32 in this range) and the exact `int` conversion.
Modelled at `FLT_EVAL_METHOD = 0` — every operation evaluated in binary32,
the default on x86-64 SSE and AArch64; extended intermediate precision
(x87) changes some counts, e.g. 7 of 100 then gives 8 instead of 7. The
counters themselves are floats incremented by 1, exact below `2^24`. The
result can exceed the exact rational ceiling: 3 of 5 gives 61, not 60
(`0.6f = 0.60000002…`, times `100.0f` rounds to `60.000004f`). -/
def ceilPct (passed total : Nat) : Nat :=
  if passed = 0 then 0
  else
    let d := fdiv32 passed total
    let m := fmul100 d.1
    if 23 + d.2 ≤ m.2 then m.1 * 2 ^ (m.2 - (23 + d.2))
    else (m.1 + 2 ^ (23 + d.2 - m.2) - 1) / 2 ^ (23 + d.2 - m.2)

/-- The loop of `MTEnv::_report` over the `_records` map entries: look each
entry's test up with `_tests.at(pair.first)` (an out-of-bounds id throws
`std::out_of_range`), print the RUNNING banner, every record, and the
PASSED banner or the feedback line, while counting the fully-passing entries
(`passedCounter`) and all entries (`testCounter`). -/
def reportEntries (tests : List MTTest) :
    List (Nat × List MTRecord) → Except Unit (String × Nat × Nat)
  | [] => .ok ("", 0, 0)
  | (k, recs) :: rest =>
    match tests[k]? with
    | none => .error ()
    | some test =>
      match reportEntries tests rest with
      | .error () => .error ()
      | .ok (out, passed, total) =>
        let banner := "\x1b[32m[RUNNING " ++ test.name ++ "]\x1b[0m\n"
        let tail :=
          if entryFailed recs = 0 then "  \x1b[32m[PASSED]\x1b[0m\n"
          else "  \x1b[31mFeedback: " ++ test.feedback ++ "\x1b[0m\n"
        .ok (banner ++ entryOut recs ++ tail ++ out,
             (if entryFailed recs = 0 then 1 else 0) + passed, total + 1)

/-- `MTEnv::_report`. The `verbose` parameter is accepted and, as in the
source, never read. -/
def MTEnv.report (env : MTEnv) (verbose : Bool) : MTReportResult :=
  match reportEntries env.tests env.records with
  | .error () => .outOfRange
  | .ok (out, passed, total) =>
    if total = 0 then .nanPercentage out
    else
      .ok (out ++ "\n\x1b[32m" ++ toString (ceilPct passed total)
             ++ "% of test passed\x1b[0m\n")
        (ceilPct passed total)

/-- `MTEnv::run_all(report, verbose)`: run every registered test, then, when
the run completed normally and `report` is true, render the report. Returns
the invocation trace, the run's result, and the report's result (absent when
reporting was skipped or the run aborted). -/
def MTEnv.run_all (env : MTEnv) (report verbose : Bool) :
    List Nat × ExecResult × Option MTReportResult :=
  let p := MTEnv.runTests env env.tests
  match p.2 with
  | .ok env' => (p.1, p.2, if report then some (env'.report verbose) else none)
  | _ => (p.1, p.2, none)

/-- Projection of a report result onto the printed aggregate percentage:
defined only in the normal case. -/
def MTReportResult.pct : MTReportResult → Option Nat
  | .ok _ p => some p
  | _ => none

/-- The aggregate percentage printed by a full `run_all(true, v)`, when the
run completed and the percentage was defined. -/
def MTEnv.runPct (env : MTEnv) (verbose : Bool) : Option Nat :=
  match (env.run_all true verbose).2.2 with
  | some r => r.pct
  | none => none

/-- An action is an assertion helper (everything except a raw `throwErr`). -/
def MTAction.isAssertion : MTAction → Bool
  | .throwErr _ => false
  | _ => true

/-- A body is free of raw throws: it only calls assertion helpers. -/
def bodyThrowFree (b : List MTAction) : Bool :=
  b.all MTAction.isAssertion

/-- The first exception a body raises outside every helper, if any. -/
def firstThrow : List MTAction → Option ErrKind
  | [] => none
  | .throwErr e :: _ => some e
  | _ :: rest => firstThrow rest

/-- Assertion record of the simple variant: `struct Record` in grading.hpp
(`pass`, `feedback`, `name`). -/
structure GERecord where
  pass : Bool
  feedback : String
  name : String
deriving Repr, DecidableEq

/-- Action of a `GradingEnv` test body: the only assertion helper is
`expect_eq`, instantiated at `T = Int`. -/
inductive GEAction where
  | expectEq (l r : Int) (msg : String)
deriving Repr, DecidableEq

/-- A registered test of the simple variant: `struct GETest` (`name`, `f`). -/
structure GETest where
  name : String
  body : List GEAction
deriving Repr, DecidableEq

/-- State of a `GradingEnv` object: `_currentTest` is a `uint8_t` running
index (its value is always below 256), `_currentTestName`, `_tests`, and
`_records` keyed by the `uint8_t` index. -/
structure GradingEnv where
  currentTest : Nat
  currentTestName : String
  tests : List GETest
  records : List (Nat × List GERecord)
deriving Repr, DecidableEq

/-- A freshly constructed `GradingEnv`: `_currentTest(0)`,
`_currentTestName("")`. -/
def GradingEnv.init : GradingEnv := ⟨0, "", [], []⟩

/-- `GradingEnv::expect_eq<T>` at `T = Int`: a passing record carries the
canned feedback `"Passed!"`; a failing one the Expected/Got/Message block;
both carry the current test's name and are inserted under the current
`uint8_t` index. -/
def GradingEnv.expect_eq (l r : Int) (msg : String) (env : GradingEnv) :
    GradingEnv :=
  let rec' : GERecord :=
    if l = r then ⟨true, "Passed!", env.currentTestName⟩
    else
      ⟨false,
       "  Expected: " ++ toString r ++ "\n  Got: " ++ toString l
         ++ "\n  Message: " ++ msg,
       env.currentTestName⟩
  { env with records := mapEmplace env.records env.currentTest rec' }

/-- `GradingEnv::_nextTest`: increment the `uint8_t` index, which wraps
modulo 256 (defined unsigned overflow in C++). -/
def GradingEnv.nextTest (env : GradingEnv) : GradingEnv :=
  { env with currentTest := (env.currentTest + 1) % 256 }

/-- One iteration of the `GradingEnv::run_all` loop: set
`_currentTestName`, run the test's function, then `_nextTest()`. -/
def GradingEnv.runTest (env : GradingEnv) (t : GETest) : GradingEnv :=
  let env1 := { env with currentTestName := t.name }
  let env2 := t.body.foldl
    (fun e a => match a with | .expectEq l r m => GradingEnv.expect_eq l r m e)
    env1
  env2.nextTest

/-- The loop of `GradingEnv::run_all` over all registered tests. -/
def GradingEnv.runTests (env : GradingEnv) : GradingEnv :=
  env.tests.foldl GradingEnv.runTest env

/-- The key under which the records of the zero-based `i`-th test run by
`run_all` are inserted, for an environment whose `_currentTest` holds
`start` when the loop begins: the `uint8_t` index after `i` increments. -/
def GradingEnv.testKey (start i : Nat) : Nat :=
  (start + i) % 256

/-- The counters of `GradingEnv::_report`: `tests` is incremented once per
record (not per test) and `passed` once per passing record. Returns
`(passed, tests)`. -/
def geReportCounts (records : List (Nat × List GERecord)) : Nat × Nat :=
  records.foldl
    (fun acc p =>
      p.2.foldl (fun a r => ((if r.pass then 1 else 0) + a.1, a.2 + 1)) acc)
    (0, 0)

/-- The aggregate percentage of `GradingEnv::_report`:
`std::ceil((passed / tests) * 100)`. With zero records this is `0.0f/0.0f`
— NaN, undefined as an `int` — modelled as `none`. -/
def GradingEnv.reportPercentage (env : GradingEnv) : Option Nat :=
  let c := geReportCounts env.records
  if c.2 = 0 then none else some (ceilPct c.1 c.2)

/-- A map entry is a fully-passing test: its `failedRecord` count is zero. -/
def entryPassedB (p : Nat × List MTRecord) : Bool :=
  entryFailed p.2 == 0

/-- Number of fully-passing entries of the record map. -/
def passedEntries (records : List (Nat × List MTRecord)) : Nat :=
  (records.filter entryPassedB).length

/-- Total number of records held in a `GradingEnv` record map. -/
def geTotalRecords (records : List (Nat × List GERecord)) : Nat :=
  (records.map (fun p => p.2.length)).sum

/-- Number of passing records held in a `GradingEnv` record map. -/
def gePassedRecords (records : List (Nat × List GERecord)) : Nat :=
  (records.map (fun p => p.2.countP (fun r => r.pass = true))).sum

/-- A registered test used by concrete instantiations. -/
def wTest : MTTest := ⟨0, "w", "fb", []⟩

/-- An environment in which `wTest` is current. -/
def wEnv : MTEnv := ⟨some wTest, [wTest], []⟩

/-- Two registered throw-free tests. -/
def wEnv2 : MTEnv :=
  (MTEnv.add_tests (0, MTEnv.init)
    [("a", "f", [.expectTrue true true]), ("b", "f", [])]).2

/-- Three registered tests whose middle one raises an exception of kind 7
outside every assertion helper. -/
def wEnvThrow : MTEnv :=
  (MTEnv.add_tests (0, MTEnv.init)
    [("a", "f", [.expectTrue true true]),
     ("boom", "f", [.throwErr 7]),
     ("c", "f", [])]).2

/-- An environment holding one test and one fully-passing record entry. -/
def wEnvRec : MTEnv := ⟨none, [⟨0, "a", "f", []⟩], [(0, [⟨true, true, none⟩])]⟩

/-- An environment whose single record entry is keyed by an id (5) out of
bounds for its one-element test vector. -/
def wEnvOOR : MTEnv := ⟨none, [⟨5, "a", "f", []⟩], [(5, [⟨true, true, none⟩])]⟩

/-- The concrete scenario of spec §8: test A with one passing assertion,
test B with one failing assertion among two, test C with zero assertions. -/
def envABC : MTEnv :=
  (MTEnv.add_tests (0, MTEnv.init)
    [("A", "fa", [.expectEq 1 1 true]),
     ("B", "fb", [.expectEq 1 1 true, .expectEq 1 2 true]),
     ("C", "fc", [])]).2

/-- A `GradingEnv` with 257 registered tests, one passing assertion each:
enough registrations for the `uint8_t` run index to wrap. -/
def env257 : GradingEnv :=
  { GradingEnv.init with tests := List.replicate 257 ⟨"", [.expectEq 0 0 ""]⟩ }

theorem mapFind_eq_none_of_lt {α : Type} (m : List (Nat × List α)) (k : Nat)
    (h : ∀ p ∈ m, k < p.1) : mapFind k m = none := by
  induction m with
  | nil => rfl
  | cons hd tl ih =>
    obtain ⟨k', rs⟩ := hd
    have hk : k ≠ k' := Nat.ne_of_lt (h (k', rs) (List.mem_cons_self _ _))
    simp only [mapFind, if_neg hk]
    exact ih fun p hp => h p (List.mem_cons_of_mem _ hp)

theorem mapFind_mapEmplace_self {α : Type} (m : List (Nat × List α)) (k : Nat)
    (r : α) (hs : m.Pairwise (fun a b => a.1 < b.1)) :
    mapFind k (mapEmplace m k r) = some ((mapFind k m).getD [] ++ [r]) := by
  induction m with
  | nil => simp [mapEmplace, mapFind]
  | cons hd tl ih =>
    obtain ⟨k', rs⟩ := hd
    rw [List.pairwise_cons] at hs
    by_cases h : k = k'
    · subst h
      simp [mapEmplace, mapFind]
    · by_cases h2 : k < k'
      · have hnone : mapFind k ((k', rs) :: tl) = none := by
          refine mapFind_eq_none_of_lt _ _ ?_
          intro p hp
          rcases List.mem_cons.1 hp with h3 | h3
          · rw [h3]; exact h2
          · exact Nat.lt_trans h2 (hs.1 p h3)
        rw [hnone]
        simp [mapEmplace, if_neg h, if_pos h2, mapFind]
      · have : mapFind k ((k', rs) :: tl) = mapFind k tl := by
          simp [mapFind, if_neg h]
        rw [this]
        simp only [mapEmplace, if_neg h, if_neg h2]
        rw [mapFind]
        rw [if_neg h]
        exact ih hs.2

theorem execAction_assertion_ok (env : MTEnv) (t : MTTest) (a : MTAction)
    (hc : env.currentTest = some t) (ha : a.isAssertion = true) :
    ∃ env', env.execAction a = .ok env' ∧ env'.currentTest = some t := by
  cases a <;> simp [MTAction.isAssertion] at ha <;>
    simp [MTEnv.execAction, MTEnv.expect, MTEnv.expect_eq, MTEnv.expect_neq,
      MTEnv.expect_true, MTEnv.expect_false, MTEnv.expect_except,
      MTEnv.expect_no_except, MTEnv.expect_any_except, MTEnv.insertRecord, hc]

theorem runBody_ok_of_throwFree (b : List MTAction) :
    ∀ (env : MTEnv) (t : MTTest), env.currentTest = some t →
    bodyThrowFree b = true →
    ∃ env', env.runBody b = .ok env' ∧ env'.currentTest = some t := by
  induction b with
  | nil => intro env t hc _; exact ⟨env, rfl, hc⟩
  | cons a rest ih =>
    intro env t hc hf
    rw [bodyThrowFree, List.all_cons, Bool.and_eq_true] at hf
    obtain ⟨env1, he, hc1⟩ := execAction_assertion_ok env t a hc hf.1
    obtain ⟨env', hr, hc'⟩ := ih env1 t hc1 hf.2
    refine ⟨env', ?_, hc'⟩
    rw [MTEnv.runBody, he]
    exact hr

theorem firstThrow_cons_of_assertion (a : MTAction) (rest : List MTAction)
    (ha : a.isAssertion = true) :
    firstThrow (a :: rest) = firstThrow rest := by
  cases a <;> simp [MTAction.isAssertion] at ha <;> rfl

theorem runBody_thrown_of_firstThrow (b : List MTAction) :
    ∀ (env : MTEnv) (t : MTTest) (e : ErrKind), env.currentTest = some t →
    firstThrow b = some e → env.runBody b = .thrown e := by
  induction b with
  | nil => intro env t e _ h; simp [firstThrow] at h
  | cons a rest ih =>
    intro env t e hc hf
    by_cases ha : a.isAssertion = true
    · rw [firstThrow_cons_of_assertion a rest ha] at hf
      obtain ⟨env1, he, hc1⟩ := execAction_assertion_ok env t a hc ha
      rw [MTEnv.runBody, he]
      exact ih env1 t e hc1 hf
    · cases a <;> try simp [MTAction.isAssertion] at ha
      next e' =>
        simp only [firstThrow] at hf
        have he : e' = e := Option.some_inj.1 hf
        subst he
        simp [MTEnv.runBody, MTEnv.execAction]

theorem runTests_of_throwFree (ts : List MTTest) :
    ∀ env : MTEnv, (∀ t ∈ ts, bodyThrowFree t.body = true) →
    (MTEnv.runTests env ts).1 = ts.map MTTest.id ∧
    ∃ env', (MTEnv.runTests env ts).2 = .ok env' := by
  induction ts with
  | nil => intro env _; exact ⟨rfl, env, rfl⟩
  | cons t rest ih =>
    intro env h
    obtain ⟨env1, hb, _⟩ := runBody_ok_of_throwFree t.body
      { env with currentTest := some t } t rfl (h t (List.mem_cons_self _ _))
    obtain ⟨h1, env', h2⟩ := ih env1 fun u hu => h u (List.mem_cons_of_mem _ hu)
    constructor
    · show (MTEnv.runTests env (t :: rest)).1 = t.id :: rest.map MTTest.id
      rw [MTEnv.runTests, hb]
      simpa using h1
    · refine ⟨env', ?_⟩
      show (MTEnv.runTests env (t :: rest)).2 = .ok env'
      rw [MTEnv.runTests, hb]
      simpa using h2

theorem runTests_thrown (pre : List MTTest) :
    ∀ (env : MTEnv) (t : MTTest) (post : List MTTest) (e : ErrKind),
    (∀ u ∈ pre, bodyThrowFree u.body = true) →
    firstThrow t.body = some e →
    MTEnv.runTests env (pre ++ t :: post) =
      ((pre ++ [t]).map MTTest.id, .thrown e) := by
  induction pre with
  | nil =>
    intro env t post e _ hf
    have hb := runBody_thrown_of_firstThrow t.body
      { env with currentTest := some t } t e rfl hf
    simp only [List.nil_append, List.map_cons, List.map_nil]
    rw [MTEnv.runTests, hb]
  | cons u rest ih =>
    intro env t post e hp hf
    obtain ⟨env1, hb, _⟩ := runBody_ok_of_throwFree u.body
      { env with currentTest := some u } u rfl (hp u (List.mem_cons_self _ _))
    have h2 := ih env1 t post e (fun v hv => hp v (List.mem_cons_of_mem _ hv)) hf
    simp only [List.cons_append]
    rw [MTEnv.runTests, hb]
    simp [h2]

theorem reportEntries_ok (tests : List MTTest) :
    ∀ entries : List (Nat × List MTRecord),
    (∀ p ∈ entries, p.1 < tests.length) →
    ∃ out, reportEntries tests entries =
      .ok (out, passedEntries entries, entries.length) := by
  intro entries
  induction entries with
  | nil => intro _; exact ⟨"", rfl⟩
  | cons p rest ih =>
    intro h
    obtain ⟨k, recs⟩ := p
    have hk : k < tests.length := h (k, recs) (List.mem_cons_self _ _)
    obtain ⟨out, ho⟩ := ih fun q hq => h q (List.mem_cons_of_mem _ hq)
    have hp : passedEntries ((k, recs) :: rest)
        = (if entryFailed recs = 0 then 1 else 0) + passedEntries rest := by
      by_cases hf : entryFailed recs = 0 <;>
        simp [passedEntries, List.filter_cons, entryPassedB, hf, Nat.add_comm]
    rw [reportEntries, List.getElem?_eq_getElem hk, ho, hp, List.length_cons]
    exact ⟨_, rfl⟩

theorem reportEntries_error (tests : List MTTest) :
    ∀ (entries : List (Nat × List MTRecord)) (k : Nat) (recs : List MTRecord),
    (k, recs) ∈ entries → tests.length ≤ k →
    reportEntries tests entries = .error () := by
  intro entries
  induction entries with
  | nil => intro k recs hm _; cases hm
  | cons p rest ih =>
    intro k recs hm hk
    obtain ⟨k', recs'⟩ := p
    rcases List.mem_cons.1 hm with h | h
    · have hkk : k' = k := congrArg Prod.fst h.symm
      subst hkk
      rw [reportEntries, List.getElem?_eq_none hk]
    · rw [reportEntries]
      cases hx : tests[k']? with
      | none => rfl
      | some test => rw [ih k recs h hk]

theorem add_tests_spec (ts : List (String × String × List MTAction)) :
    ∀ (ctr : Nat) (env : MTEnv),
    ∃ suffix : List MTTest,
      (MTEnv.add_tests (ctr, env) ts).2.tests = env.tests ++ suffix ∧
      suffix.map MTTest.id = List.range' ctr ts.length ∧
      (MTEnv.add_tests (ctr, env) ts).1 = ctr + ts.length := by
  induction ts with
  | nil => intro ctr env; exact ⟨[], by simp [MTEnv.add_tests], rfl, rfl⟩
  | cons t rest ih =>
    intro ctr env
    obtain ⟨suf, h1, h2, h3⟩ := ih (ctr + 1)
      { env with tests := env.tests ++ [⟨ctr, t.1, t.2.1, t.2.2⟩] }
    refine ⟨⟨ctr, t.1, t.2.1, t.2.2⟩ :: suf, ?_, ?_, ?_⟩
    · rw [MTEnv.add_tests, List.foldl_cons]
      rw [MTEnv.add_tests] at h1
      simpa using h1
    · rw [List.map_cons, h2, List.length_cons, List.range'_succ]
    · rw [MTEnv.add_tests, List.foldl_cons]
      rw [MTEnv.add_tests] at h3
      simp only [MTEnv.add_test, List.length_cons] at h3 ⊢
      omega

theorem ge_body_currentTest (b : List GEAction) :
    ∀ env : GradingEnv,
    (b.foldl
      (fun e a => match a with | .expectEq l r m => GradingEnv.expect_eq l r m e)
      env).currentTest = env.currentTest := by
  induction b with
  | nil => intro env; rfl
  | cons a rest ih =>
    intro env
    obtain ⟨l, r, m⟩ := a
    rw [List.foldl_cons]
    rw [ih]
    rfl

theorem ge_runTest_currentTest (env : GradingEnv) (t : GETest) :
    (env.runTest t).currentTest = (env.currentTest + 1) % 256 := by
  show ((_ : GradingEnv).nextTest).currentTest = _
  rw [GradingEnv.nextTest]
  simp only
  rw [ge_body_currentTest]

theorem ge_runTests_currentTest (ts : List GETest) :
    ∀ env : GradingEnv, env.currentTest < 256 →
    (ts.foldl GradingEnv.runTest env).currentTest
      = (env.currentTest + ts.length) % 256 := by
  induction ts with
  | nil =>
    intro env h
    simp [Nat.mod_eq_of_lt h]
  | cons t rest ih =>
    intro env _
    rw [List.foldl_cons, ih (env.runTest t) (by rw [ge_runTest_currentTest]; exact Nat.mod_lt _ (by omega)),
      ge_runTest_currentTest, Nat.mod_add_mod]
    congr 1
    simp only [List.length_cons]
    omega

theorem ge_fold_counts (recs : List GERecord) :
    ∀ acc : Nat × Nat,
    recs.foldl (fun a r => ((if r.pass then 1 else 0) + a.1, a.2 + 1)) acc
      = (acc.1 + recs.countP (fun r => r.pass = true), acc.2 + recs.length) := by
  induction recs with
  | nil => intro acc; simp
  | cons r rest ih =>
    intro acc
    rw [List.foldl_cons, ih]
    simp only [List.countP_cons, List.length_cons]
    by_cases h : r.pass <;> simp [h, Prod.mk.injEq] <;> omega

theorem ge_counts_aux (records : List (Nat × List GERecord)) :
    ∀ acc : Nat × Nat,
    records.foldl
      (fun acc p =>
        p.2.foldl (fun a r => ((if r.pass then 1 else 0) + a.1, a.2 + 1)) acc)
      acc
      = (acc.1 + gePassedRecords records, acc.2 + geTotalRecords records) := by
  induction records with
  | nil => intro acc; simp [gePassedRecords, geTotalRecords]
  | cons p rest ih =>
    intro acc
    rw [List.foldl_cons, ge_fold_counts, ih]
    simp only [gePassedRecords, geTotalRecords, List.map_cons, List.sum_cons,
      Prod.mk.injEq]
    omega

theorem geReportCounts_eq (records : List (Nat × List GERecord)) :
    geReportCounts records = (gePassedRecords records, geTotalRecords records) := by
  rw [geReportCounts, ge_counts_aux]
  simp


/-- C1 counterexample: in the concrete scenario of spec §8 — test A with all
assertions passing, test B with one failing assertion among two, test C with
zero assertions — `MTEnv::_report` prints 50, not 67. The `_report` loop
iterates the `_records` map, which has no entry for a test that produced no
assertion record, so test C is counted neither as passed nor in the total:
the counters are 1 passed of 2, giving `ceil(100 * 1 / 2) = 50`. -/
theorem c1_counterexample :
    MTEnv.runPct envABC false = some 50 ∧
    MTEnv.runPct envABC false ≠ some 67 := by
  constructor <;> decide

/-- C1 (amended): the aggregate percentage of `MTEnv::_report` is the IEEE
binary32 evaluation of `ceil((passed / total) * 100)` (the function
`ceilPct`, faithful to the program's `float` arithmetic) where `passed`
counts the record-map entries with zero failing records and `total` counts
all record-map entries: a test that produced zero assertion records has no
map entry and is excluded from both counts, and the float counters are
exact below `2^24` entries. For `GradingEnv::_report` the same float
computation is applied to per-record counters (each record, not each test,
contributes one to the total). The float arithmetic can exceed the exact
rational ceiling: 3 fully-passing entries of 5 print 61, not 60. -/
theorem c1_amended_percentage :
    (∀ (env : MTEnv) (v : Bool),
      (∀ p ∈ env.records, p.1 < env.tests.length) →
      env.records ≠ [] →
      env.records.length < 2 ^ 24 →
      ∃ out, env.report v
        = .ok out (ceilPct (passedEntries env.records) env.records.length)) ∧
    (∀ genv : GradingEnv, 0 < geTotalRecords genv.records →
      geTotalRecords genv.records < 2 ^ 24 →
      genv.reportPercentage
        = some (ceilPct (gePassedRecords genv.records)
            (geTotalRecords genv.records))) ∧
    ceilPct 3 5 = 61 := by
  refine ⟨?_, ?_, by decide⟩
  · intro env v hk hne _
    obtain ⟨out, ho⟩ := reportEntries_ok env.tests env.records hk
    rw [MTEnv.report, ho]
    have hlen : env.records.length ≠ 0 :=
      fun h => hne (List.length_eq_zero.1 h)
    simp only [hlen, if_false]
    exact ⟨_, rfl⟩
  · intro genv h _
    rw [GradingEnv.reportPercentage, geReportCounts_eq]
    simp only
    rw [if_neg (by omega)]

/-- C1 witness: a one-test environment holding one fully-passing record
entry reports the amended percentage, here 100. -/
theorem c1_amended_witness :
    (MTEnv.report wEnvRec false).pct = some 100 := by
  obtain ⟨out, ho⟩ :=
    c1_amended_percentage.1 wEnvRec false (by decide) (by decide) (by decide)
  rw [ho]
  show some (ceilPct (passedEntries wEnvRec.records) wEnvRec.records.length)
    = some 100
  decide

/-- C3: the claim requires a defined fallback when zero tests are
registered, but the code has none. With an empty test list `run_all(true)`
runs no test, `_records` stays empty, and `_report` computes
`passedCounter / testCounter` as `0.0f / 0.0f` — a NaN whose conversion to
`int` is undefined — before unconditionally printing the aggregate line.
This theorem evaluates the model at the failing input: the run completes
(no crash) and the report ends in the undefined-percentage state, for both
variants. -/
theorem c3_zero_tests_report :
    MTEnv.run_all MTEnv.init true false
      = ([], .ok MTEnv.init, some (.nanPercentage "")) ∧
    GradingEnv.reportPercentage (GradingEnv.runTests GradingEnv.init) = none := by
  constructor <;> rfl

/-- C4: for every environment whose test bodies raise nothing outside the
assertion helpers, `run_all` invokes each registered test's function exactly
once, in registration order (the invocation trace is exactly the ids of the
registered tests, in order), each invocation receiving the threaded
environment state — the model of passing `*this` by reference. -/
theorem c4_run_all_order (env : MTEnv)
    (h : ∀ t ∈ env.tests, bodyThrowFree t.body = true) :
    (∀ report verbose : Bool,
      (MTEnv.run_all env report verbose).1 = env.tests.map MTTest.id) ∧
    ∃ env', (MTEnv.runTests env env.tests).2 = .ok env' := by
  obtain ⟨h1, env', h2⟩ := runTests_of_throwFree env.tests env h
  refine ⟨?_, env', h2⟩
  intro report verbose
  rw [MTEnv.run_all]
  simp only [h2]
  simpa using h1

/-- C4 witness: a concrete two-test environment is traced as `[0, 1]`. -/
theorem c4_run_all_order_witness :
    (MTEnv.run_all wEnv2 true false).1 = [0, 1] := by
  rw [(c4_run_all_order wEnv2 (by decide)).1 true false]
  decide

/-- C5: `expect_eq(l, r)` appends a passing record exactly when `l = r` and
otherwise a failing one whose reason mentions both operands (the printed
forms of `l` and `r` occur in the reason text); `expect_neq` records pass
exactly when `expect_eq` on the same pair would record fail; and both append
their record at the end of the current test's record list. -/
theorem c5_expect_eq_neq (l r : Int) (p : Bool) :
    ((expectRecord (decide (l = r)) (toString l ++ " != " ++ toString r) p).pass
       = true ↔ l = r) ∧
    (l ≠ r → (∃ u v : List Char,
      ((expectRecord (decide (l = r)) (toString l ++ " != " ++ toString r)
          p).reason.getD "").data
        = u ++ (toString l).data ++ v) ∧
      ∃ u v : List Char,
      ((expectRecord (decide (l = r)) (toString l ++ " != " ++ toString r)
          p).reason.getD "").data
        = u ++ (toString r).data ++ v) ∧
    ((expectRecord (!decide (l = r)) (toString l ++ " == " ++ toString r) p).pass
      = !(expectRecord (decide (l = r)) (toString l ++ " != " ++ toString r)
            p).pass) ∧
    (∀ (env : MTEnv) (t : MTTest), env.currentTest = some t →
      env.records.Pairwise (fun a b => a.1 < b.1) →
      (∃ env', MTEnv.expect_eq l r p env = some env' ∧
        mapFind t.id env'.records
          = some ((mapFind t.id env.records).getD []
              ++ [expectRecord (decide (l = r))
                    (toString l ++ " != " ++ toString r) p])) ∧
      (∃ env', MTEnv.expect_neq l r p env = some env' ∧
        mapFind t.id env'.records
          = some ((mapFind t.id env.records).getD []
              ++ [expectRecord (!decide (l = r))
                    (toString l ++ " == " ++ toString r) p]))) := by
  refine ⟨?_, ?_, ?_, ?_⟩
  · by_cases h : l = r <;> simp [expectRecord, h]
  · intro h
    constructor
    · refine ⟨"\x1b[31m".data,
        " != ".data ++ (toString r).data ++ "\x1b[0m\n".data, ?_⟩
      simp [expectRecord, h, String.data_append]
    · refine ⟨"\x1b[31m".data ++ (toString l).data ++ " != ".data,
        "\x1b[0m\n".data, ?_⟩
      simp [expectRecord, h, String.data_append]
  · by_cases h : l = r <;> simp [expectRecord, h]
  · intro env t hc hs
    constructor
    · have he : ∃ env', MTEnv.expect_eq l r p env = some env' ∧
          env'.records = mapEmplace env.records t.id
            (expectRecord (decide (l = r))
              (toString l ++ " != " ++ toString r) p) := by
        rw [MTEnv.expect_eq, MTEnv.expect, MTEnv.insertRecord, hc]
        exact ⟨_, rfl, rfl⟩
      obtain ⟨env', he1, he2⟩ := he
      refine ⟨env', he1, ?_⟩
      rw [he2]
      exact mapFind_mapEmplace_self env.records t.id _ hs
    · have he : ∃ env', MTEnv.expect_neq l r p env = some env' ∧
          env'.records = mapEmplace env.records t.id
            (expectRecord (!decide (l = r))
              (toString l ++ " == " ++ toString r) p) := by
        rw [MTEnv.expect_neq, MTEnv.expect, MTEnv.insertRecord, hc]
        exact ⟨_, rfl, rfl⟩
      obtain ⟨env', he1, he2⟩ := he
      refine ⟨env', he1, ?_⟩
      rw [he2]
      exact mapFind_mapEmplace_self env.records t.id _ hs

/-- C5 witness: `expect_eq 0 1` on an environment with a current test
appends the failing record under the current test's id. -/
theorem c5_expect_eq_neq_witness :
    mapFind 0 ((MTEnv.expect_eq 0 1 true wEnv).getD wEnv).records
      = some [expectRecord (decide ((0 : Int) = 1))
          (toString (0 : Int) ++ " != " ++ toString (1 : Int)) true] := by
  obtain ⟨⟨env', he, hm⟩, _⟩ :=
    (c5_expect_eq_neq 0 1 true).2.2.2 wEnv wTest rfl (by simp [wEnv])
  rw [he]
  simpa [wEnv, wTest, mapFind] using hm

/-- C6: a failing record whose printable flag is false produces no
per-record output yet still counts toward its owning test's failed-record
count, so a test containing it is excluded from the passing count and
reported as failed. -/
theorem c6_nonprintable_counted (rec : MTRecord)
    (h1 : rec.pass = false) (h2 : rec.printable = false) :
    recordOut rec = "" ∧
    (∀ recs : List MTRecord, rec ∈ recs →
      entryFailed recs ≠ 0 ∧ ∀ k, entryPassedB (k, recs) = false) := by
  constructor
  · simp [recordOut, h1, h2]
  · intro recs hm
    have hpos : 0 < entryFailed recs := by
      rw [entryFailed]
      exact List.countP_pos_iff.2 ⟨rec, hm, by simp [h1]⟩
    refine ⟨by omega, ?_⟩
    intro k
    simp only [entryPassedB]
    simp [Nat.pos_iff_ne_zero.1 hpos]

/-- C6 witness: the concrete non-printable failing record. -/
theorem c6_nonprintable_counted_witness :
    recordOut ⟨false, false, none⟩ = ""
      ∧ entryFailed [⟨false, false, none⟩] ≠ 0 := by
  have h := c6_nonprintable_counted ⟨false, false, none⟩ rfl rfl
  exact ⟨h.1, (h.2 [⟨false, false, none⟩] (List.mem_cons_self _ _)).1⟩

/-- C7: an exception raised by a test body outside every assertion helper
propagates out of `run_all`: the run aborts with that exception, the tests
registered after the raising one are never invoked, and no report is
printed. Conversely no assertion helper ever turns an assertion failure
into a raised error. -/
theorem c7_exception_propagation :
    (∀ (env : MTEnv) (v : Bool) (pre post : List MTTest) (t : MTTest)
       (e : ErrKind),
      env.tests = pre ++ t :: post →
      (∀ u ∈ pre, bodyThrowFree u.body = true) →
      firstThrow t.body = some e →
      MTEnv.run_all env true v
        = ((pre ++ [t]).map MTTest.id, .thrown e, none)) ∧
    (∀ (env : MTEnv) (t : MTTest) (a : MTAction), env.currentTest = some t →
      a.isAssertion = true → ∀ e, env.execAction a ≠ .thrown e) := by
  constructor
  · intro env v pre post t e ht hp hf
    have h := runTests_thrown pre env t post e hp hf
    rw [MTEnv.run_all, ht, h]
  · intro env t a hc ha e
    obtain ⟨env', he, _⟩ := execAction_assertion_ok env t a hc ha
    simp [he]

/-- C7 witness: the second of three registered tests raises kind 7; the
trace stops there and no report is produced. -/
theorem c7_exception_propagation_witness :
    MTEnv.run_all wEnvThrow true false = ([0, 1], .thrown 7, none) := by
  rw [c7_exception_propagation.1 wEnvThrow false
    [⟨0, "a", "f", [.expectTrue true true]⟩]
    [⟨2, "c", "f", []⟩] ⟨1, "boom", "f", [.throwErr 7]⟩ 7
    (by decide) (by decide) rfl]
  rfl

/-- C9: on a freshly constructed `MTEnv` the current-test pointer is null
and any assertion helper dereferences it (undefined behaviour); under the
precondition that some test is current — which `run_all` establishes before
invoking each test's function — the null-dereference branch is
unreachable. -/
theorem c9_null_current_test :
    MTEnv.init.currentTest = none ∧
    (∀ (env : MTEnv) (a : MTAction), env.currentTest = none →
      a.isAssertion = true → env.execAction a = .nullDeref) ∧
    (∀ (env : MTEnv) (t : MTTest) (a : MTAction), env.currentTest = some t →
      a.isAssertion = true → ∃ env', env.execAction a = .ok env') := by
  refine ⟨rfl, ?_, ?_⟩
  · intro env a hc ha
    cases a <;> simp [MTAction.isAssertion] at ha <;>
      simp [MTEnv.execAction, MTEnv.expect, MTEnv.expect_eq, MTEnv.expect_neq,
        MTEnv.expect_true, MTEnv.expect_false, MTEnv.expect_except,
        MTEnv.expect_no_except, MTEnv.expect_any_except, MTEnv.insertRecord, hc]
  · intro env t a hc ha
    obtain ⟨env', he, _⟩ := execAction_assertion_ok env t a hc ha
    exact ⟨env', he⟩

/-- C9 witness: `expect_eq` on a freshly constructed environment hits the
null dereference. -/
theorem c9_null_current_test_witness :
    MTEnv.init.execAction (.expectEq 1 2 true) = .nullDeref :=
  c9_null_current_test.2.1 MTEnv.init (.expectEq 1 2 true) rfl rfl

/-- C2: the exception-assertion helpers (modelled from the spec, since only
their call sites are under src/): `expect_except<K>` appends a record passing
iff the thunk raised kind K, `expect_no_except` iff it raised nothing,
`expect_any_except` iff it raised anything — each inverted by
`expectFailure` — each appended under the current test, and none of the
three lets the thunk's exception escape: their interpretation never yields a
thrown result. -/
theorem c2_exception_helpers :
    (∀ (kind : ErrKind) (thunk : Option ErrKind) (ef : Bool),
      ((exceptRecord (thunk == some kind) ef).pass = true
        ↔ ((thunk = some kind) ↔ ef = false))) ∧
    (∀ (thunk : Option ErrKind) (ef : Bool),
      ((exceptRecord thunk.isNone ef).pass = true
        ↔ ((thunk = none) ↔ ef = false))) ∧
    (∀ (thunk : Option ErrKind) (ef : Bool),
      ((exceptRecord thunk.isSome ef).pass = true
        ↔ ((∃ k, thunk = some k) ↔ ef = false))) ∧
    (∀ (env : MTEnv) (t : MTTest) (kind : ErrKind) (thunk : Option ErrKind)
       (ef : Bool), env.currentTest = some t →
      (∃ env', MTEnv.expect_except kind thunk ef env = some env' ∧
        env'.records
          = mapEmplace env.records t.id (exceptRecord (thunk == some kind) ef)) ∧
      (∃ env', MTEnv.expect_no_except thunk ef env = some env' ∧
        env'.records
          = mapEmplace env.records t.id (exceptRecord thunk.isNone ef)) ∧
      (∃ env', MTEnv.expect_any_except thunk ef env = some env' ∧
        env'.records
          = mapEmplace env.records t.id (exceptRecord thunk.isSome ef))) ∧
    (∀ (env : MTEnv) (t : MTTest) (kind : ErrKind) (thunk : Option ErrKind)
       (ef : Bool) (e : ErrKind), env.currentTest = some t →
      env.execAction (.expectExcept kind thunk ef) ≠ .thrown e ∧
      env.execAction (.expectNoExcept thunk ef) ≠ .thrown e ∧
      env.execAction (.expectAnyExcept thunk ef) ≠ .thrown e) := by
  refine ⟨?_, ?_, ?_, ?_, ?_⟩
  · intro kind thunk ef
    by_cases h : thunk = some kind <;> cases ef <;> simp [exceptRecord, h]
  · intro thunk ef
    cases thunk <;> cases ef <;> simp [exceptRecord]
  · intro thunk ef
    cases thunk <;> cases ef <;> simp [exceptRecord]
  · intro env t kind thunk ef hc
    refine ⟨?_, ?_, ?_⟩
    · rw [MTEnv.expect_except, MTEnv.insertRecord, hc]
      exact ⟨_, rfl, rfl⟩
    · rw [MTEnv.expect_no_except, MTEnv.insertRecord, hc]
      exact ⟨_, rfl, rfl⟩
    · rw [MTEnv.expect_any_except, MTEnv.insertRecord, hc]
      exact ⟨_, rfl, rfl⟩
  · intro env t kind thunk ef e hc
    refine ⟨?_, ?_, ?_⟩ <;>
      simp [MTEnv.execAction, MTEnv.expect_except, MTEnv.expect_no_except,
        MTEnv.expect_any_except, MTEnv.insertRecord, hc]

/-- C2 witness: `expect_except` with a thunk raising the expected kind 3
appends a passing record under the current test. -/
theorem c2_exception_helpers_witness :
    (MTEnv.expect_except 3 (some 3) false wEnv).map MTEnv.records
      = some (mapEmplace wEnv.records wTest.id
          (exceptRecord ((some 3 : Option ErrKind) == some 3) false)) := by
  obtain ⟨env', h1, h2⟩ :=
    (c2_exception_helpers.2.2.2.1 wEnv wTest 3 (some 3) false rfl).1
  rw [h1]
  simp [h2]

set_option maxRecDepth 20000 in
/-- C8 counterexample: `GradingEnv`'s per-test identifier is the `uint8_t`
run index, which wraps modulo 256: running an environment with 257
registered tests (one passing assertion each) merges the records of the
first and the 257th test under key 0 — the entry at key 0 holds 2 records —
so identifiers are reused and records of distinct tests are merged,
contradicting the claim for this variant. -/
theorem c8_counterexample :
    (mapFind 0 (GradingEnv.runTests env257).records).map List.length = some 2 ∧
    GradingEnv.testKey 0 0 = GradingEnv.testKey 0 256 ∧ (0 : Nat) ≠ 256 := by
  refine ⟨by decide, rfl, by decide⟩

/-- C8 (amended): `MTEnv` identifiers come from the process-wide counter and
are strictly increasing, never reused and never renumbered — registration
appends to the test list, leaving every earlier test (and its id) unchanged,
and the ids assigned by a batch starting at counter value `ctr` are exactly
`ctr, ctr+1, …`. For `GradingEnv` the per-test record key assigned during
`run_all` is the `uint8_t` run index `(start + i) % 256`, so the
no-reuse/no-merge guarantee holds only while at most 256 tests are
registered; distinct indices below 256 give distinct keys. -/
theorem c8_amended_identifiers :
    (∀ (ctr : Nat) (env : MTEnv) (ts : List (String × String × List MTAction)),
      ∃ suffix : List MTTest,
        (MTEnv.add_tests (ctr, env) ts).2.tests = env.tests ++ suffix ∧
        suffix.map MTTest.id = List.range' ctr ts.length) ∧
    (∀ (ctr : Nat) (ts : List (String × String × List MTAction)),
      ((MTEnv.add_tests (ctr, MTEnv.init) ts).2.tests.map MTTest.id).Pairwise
        (· < ·)) ∧
    (∀ (env : GradingEnv) (i : Nat), env.currentTest < 256 →
      i ≤ env.tests.length →
      ((env.tests.take i).foldl GradingEnv.runTest env).currentTest
        = GradingEnv.testKey env.currentTest i) ∧
    (∀ i j : Nat, i < 256 → j < 256 →
      GradingEnv.testKey 0 i = GradingEnv.testKey 0 j → i = j) := by
  refine ⟨?_, ?_, ?_, ?_⟩
  · intro ctr env ts
    obtain ⟨suf, h1, h2, _⟩ := add_tests_spec ts ctr env
    exact ⟨suf, h1, h2⟩
  · intro ctr ts
    obtain ⟨suf, h1, h2, _⟩ := add_tests_spec ts ctr MTEnv.init
    have h3 : ((MTEnv.init.tests ++ suf).map MTTest.id)
        = List.range' ctr ts.length := by
      simpa [MTEnv.init] using h2
    rw [h1, h3]
    exact List.pairwise_lt_range' ctr ts.length
  · intro env i h hi
    rw [ge_runTests_currentTest _ _ h, List.length_take, GradingEnv.testKey]
    congr 1
    omega
  · intro i j hi hj h
    rw [GradingEnv.testKey, GradingEnv.testKey, Nat.zero_add, Nat.zero_add,
      Nat.mod_eq_of_lt hi, Nat.mod_eq_of_lt hj] at h
    exact h

set_option maxRecDepth 20000 in
/-- C8 witness: after one test of `env257`, the `uint8_t` index equals the
key formula at index 1. -/
theorem c8_amended_identifiers_witness :
    ((env257.tests.take 1).foldl GradingEnv.runTest env257).currentTest
      = GradingEnv.testKey env257.currentTest 1 :=
  c8_amended_identifiers.2.2.1 env257 1 (by decide) (by decide)

/-- C10: `MTEnv::_report` looks each record-map entry's test up with
`_tests.at(id)`, indexing the per-environment vector by the process-wide
id. When this environment's tests carry ids `0..n-1` — which registration
produces exactly when the counter started at 0, i.e. no other environment
registered first — every lookup is in bounds and yields the test whose id
is the key; when a record's key reaches beyond the vector, the report
raises `std::out_of_range`. Registration from counter value `ctr` assigns
ids `ctr, ctr+1, …`, so a sole environment gets `0..n-1`. -/
theorem c10_report_lookup :
    (∀ (env : MTEnv) (k : Nat),
      (∀ i (h : i < env.tests.length), (env.tests.get ⟨i, h⟩).id = i) →
      ∀ h : k < env.tests.length,
      env.tests[k]? = some (env.tests.get ⟨k, h⟩) ∧
        (env.tests.get ⟨k, h⟩).id = k) ∧
    (∀ (env : MTEnv) (v : Bool) (k : Nat) (recs : List MTRecord),
      (k, recs) ∈ env.records → env.tests.length ≤ k →
      env.report v = .outOfRange) ∧
    (∀ (ctr : Nat) (ts : List (String × String × List MTAction)),
      (MTEnv.add_tests (ctr, MTEnv.init) ts).2.tests.map MTTest.id
        = List.range' ctr ts.length) := by
  refine ⟨?_, ?_, ?_⟩
  · intro env k hid h
    refine ⟨?_, hid k h⟩
    rw [List.getElem?_eq_getElem h]
    simp [List.get_eq_getElem]
  · intro env v k recs hm hk
    rw [MTEnv.report, reportEntries_error env.tests env.records k recs hm hk]
  · intro ctr ts
    obtain ⟨suf, h1, h2, _⟩ := add_tests_spec ts ctr MTEnv.init
    rw [h1]
    simpa [MTEnv.init] using h2

/-- C10 witness: an environment whose single record entry is keyed by id 5,
out of bounds for its one-element test vector, reports out-of-range. -/
theorem c10_report_lookup_witness :
    MTEnv.report wEnvOOR false = .outOfRange :=
  c10_report_lookup.2.1 wEnvOOR false 5 [⟨true, true, none⟩]
    (List.mem_cons_self _ _) (by decide)
